import Mathlib

/-!
Verification development for the Google-Calendar-Export-To-CSV application.

The definitions below are a shallow embedding of the authentication and
export logic of `calendar_export_app.py` (with `calendar_export_app_diagnostic.py`
sharing the same credential-store and transport code).  Pure Python functions
become Lean functions; the process-wide mutable state (the `ssl` module
globals, the Streamlit session state, the query parameters, the files on
disk, and the OAuth provider-side record of consumed authorization codes)
becomes an explicit `World` value threaded through `authenticate_google`.
External collaborators (the google-auth / oauthlib libraries and the
provider endpoint) are modelled at the granularity the source observes:
`fetch_token` consumes a single-use authorization code, `authorization_url`
embeds the flow redirect URI together with a freshly generated CSRF state,
and `Credentials.from_authorized_user_file` raises on content that does not
parse as an authorized-user record.
-/

/- ## Transport policy: the SSL bypass globals (lines 30-31 and 157-186) -/

/-- Process-wide SSL state: `ctx` models the current value of
`ssl._create_default_https_context`, `orig` models the presence and value of
the `ssl._create_default_https_context_original` attribute, and
`bypassEnabled` models the module-level `_ssl_bypass_enabled` flag.
Context factory values are abstracted as naturals. -/
structure SslState where
  ctx : Nat
  orig : Option Nat
  bypassEnabled : Bool
deriving DecidableEq

/-- Value standing for `ssl._create_unverified_context`. -/
def unverifiedContext : Nat := 1

/-- Embedding of `enable_ssl_bypass` (lines 157-171): when the bypass flag is
off, capture the original context factory only if the attribute is not yet
set, install the unverified factory and raise the flag. -/
def enable_ssl_bypass (s : SslState) : SslState :=
  if s.bypassEnabled then s
  else
    let s1 := if s.orig.isNone then { s with orig := some s.ctx } else s
    { s1 with ctx := unverifiedContext, bypassEnabled := true }

/-- Embedding of `disable_ssl_bypass` (lines 174-186): when the flag is on and
the saved attribute exists, restore the saved factory and clear the flag. -/
def disable_ssl_bypass (s : SslState) : SslState :=
  if s.bypassEnabled && s.orig.isSome then
    { s with ctx := s.orig.getD s.ctx, bypassEnabled := false }
  else s

/-- A toggle operation on the process-wide transport state. -/
inductive SslOp
  | enableOp
  | disableOp
deriving DecidableEq

/-- Apply one toggle. -/
def applySslOp (s : SslState) : SslOp → SslState
  | SslOp.enableOp => enable_ssl_bypass s
  | SslOp.disableOp => disable_ssl_bypass s

/-- Apply a sequence of toggles, first element first. -/
def applySslOps (s : SslState) (ops : List SslOp) : SslState :=
  ops.foldl applySslOp s

/-- The pristine process state: context factory `c0`, no saved attribute,
flag down. -/
def initialSsl (c0 : Nat) : SslState :=
  { ctx := c0, orig := none, bypassEnabled := false }

/-- Invariant of every state reachable from `initialSsl c0`: the saved
attribute is absent or holds exactly `c0`; whenever the flag is down the
installed factory is the original one; whenever the flag is up the original
has been captured. -/
def sslInv (c0 : Nat) (s : SslState) : Prop :=
  (s.orig = none ∨ s.orig = some c0) ∧
  (s.bypassEnabled = false → s.ctx = c0) ∧
  (s.bypassEnabled = true → s.orig = some c0)

/- ## Data model of the credential lifecycle (authenticate_google, lines 270-553) -/

/-- Abstraction of a `google.oauth2.credentials.Credentials` object at the
granularity the source inspects: the `valid`, `expired` and `refresh_token`
attributes. -/
structure Credentials where
  valid : Bool
  expired : Bool
  refresh_token : Bool
deriving DecidableEq

/-- Content of `token.json` when the file exists: either bytes that
`Credentials.from_authorized_user_file` rejects (malformed JSON or schema
mismatch) or a well-formed authorized-user record. -/
inductive TokenContent
  | malformed
  | record (c : Credentials)
deriving DecidableEq

/-- OAuth client type as classified by `get_oauth_client_type`. -/
inductive ClientType
  | web
  | installed
deriving DecidableEq

/-- One client entry of `credentials.json` (under the `web` or `installed`
key); the source only reads its ordered `redirect_uris` list. -/
structure ClientEntry where
  redirect_uris : List String
deriving DecidableEq

/-- Parsed `credentials.json`: optional `web` and `installed` top-level keys. -/
structure ClientConfig where
  web : Option ClientEntry
  installed : Option ClientEntry
deriving DecidableEq

/-- Content of `credentials.json` when the file exists. -/
inductive CredFileContent
  | malformed
  | config (c : ClientConfig)
deriving DecidableEq

/-- The files the authentication code touches: `token.json` and
`credentials.json`; `none` means the file does not exist. -/
structure FS where
  token : Option TokenContent
  credentials : Option CredFileContent
deriving DecidableEq

/-- An authorization URL as the source observes it: it embeds the redirect
URI of the flow that generated it and the freshly generated CSRF state. -/
structure AuthorizationUrl where
  redirect_uri : String
  csrf_state : String
deriving DecidableEq

/-- A `google_auth_oauthlib` flow object: the constructor that created it,
the redirect URI it is bound to, and its stored CSRF state (`_state`),
absent until `authorization_url` generates one or the code assigns it. -/
structure OAuthFlow where
  client_type : ClientType
  redirect_uri : String
  csrf : Option String
deriving DecidableEq

/-- The three `st.session_state` keys the flow code uses. -/
structure Session where
  oauth_flow : Option OAuthFlow
  auth_url : Option AuthorizationUrl
  redirect_uri : Option String
deriving DecidableEq

/-- The `code` and `state` query parameters of the current request. -/
structure QueryParams where
  code : Option String
  state : Option String
deriving DecidableEq

/-- Instrumentation of the provider-side token endpoint: one entry per
token-exchange request, recording the authorization code presented and the
redirect URI the requesting flow was bound to. -/
structure ExchangeRecord where
  code : String
  redirect_uri : String
deriving DecidableEq

/-- The mutable world threaded through `authenticate_google`: the files, the
Streamlit session, the query parameters, the process-wide SSL state, the
provider-side set of already-redeemed authorization codes, and the log of
token-exchange requests (most recent first). -/
structure World where
  fs : FS
  session : Session
  query : QueryParams
  ssl : SslState
  used_codes : List String
  exchange_log : List ExchangeRecord
deriving DecidableEq

/-- A redirect URL pasted by the user in the manual installed-client flow:
the authorization code and the `state` parameter it carries. -/
structure Pasted where
  code : String
  state : Option String
deriving DecidableEq

/-- The read-only environment of one call: deployment topology, the CSRF
state the library would generate next, whether a token refresh would
succeed, the codes the provider has granted, the pasted redirect URL (if
any), the result of the local browser flow, and whether building the
calendar service succeeds. -/
structure Env where
  is_cloud : Bool
  fresh_csrf : String
  refresh_ok : Bool
  granted_codes : List String
  pasted_url : Option Pasted
  local_auth : Option Credentials
  build_ok : Bool
deriving DecidableEq

/-- The authenticated calendar service handle (an `AuthorizedHttp`-backed
service object wrapping the credential). -/
structure Service where
  creds : Option Credentials
deriving DecidableEq

/-- The status strings `authenticate_google` returns to its caller. -/
inductive AuthStatus
  | success
  | awaiting_auth
  | credentials_missing
  | auth_error (msg : String)
  | service_error (msg : String)
deriving DecidableEq

/-- Outcome of the authorization-flow block (lines 300-532): either an early
`return None, status`, or a credential obtained and control continuing to
the save step. -/
inductive FlowOutcome
  | early (w : World) (st : AuthStatus)
  | got (w : World) (c : Credentials)
deriving DecidableEq

/- ## Operations (translated from authenticate_google and its helpers) -/

/-- Model of `Credentials.from_authorized_user_file` on an existing file:
raises on malformed content, returns the record otherwise. -/
def from_authorized_user_file : TokenContent → Except String Credentials
  | TokenContent.malformed => Except.error "token.json: invalid authorized user info"
  | TokenContent.record c => Except.ok c

/-- Lines 278-282: `creds = None`, then load `token.json` if it exists.  The
load is outside every `try` block, so its exception propagates. -/
def loadCachedCredentials (fs : FS) : Except String (Option Credentials) :=
  match fs.token with
  | none => Except.ok none
  | some tc =>
      match from_authorized_user_file tc with
      | Except.error e => Except.error e
      | Except.ok c => Except.ok (some c)

/-- Embedding of `get_oauth_client_type` (lines 223-238): `web` when the
`web` key is present, else `installed` (also on a missing or malformed
file, via the bare `except` and the default fall-through). -/
def get_oauth_client_type (fs : FS) : ClientType :=
  match fs.credentials with
  | some (CredFileContent.config c) =>
      if c.web.isSome then ClientType.web else ClientType.installed
  | _ => ClientType.installed

/-- Select the client entry the given client type reads from the parsed
`credentials.json`. -/
def clientEntry (cfg : ClientConfig) : ClientType → Option ClientEntry
  | ClientType.web => cfg.web
  | ClientType.installed => cfg.installed

/-- Result of a successful `creds.refresh(Request())`: the credential
becomes valid and unexpired, keeping its refresh token. -/
def refreshedCredentials (c : Credentials) : Credentials :=
  { valid := true, expired := false, refresh_token := c.refresh_token }

/-- Python truthiness plus validity of the loaded credential: the guard
`not creds or not creds.valid` fails exactly when this is `true`. -/
def credsOptValid : Option Credentials → Bool
  | none => false
  | some c => c.valid

/-- Lines 285-294: attempt a token refresh when the loaded credential is
expired and carries a refresh token; on failure delete `token.json` and
treat the credential as absent. -/
def refreshStep (env : Env) (creds0 : Option Credentials) (w : World) :
    Option Credentials × World :=
  match creds0 with
  | some c =>
      if c.expired && c.refresh_token then
        if env.refresh_ok then (some (refreshedCredentials c), w)
        else (none, { w with fs := { w.fs with token := none } })
      else (some c, w)
  | none => (none, w)

/-- Model of `flow.fetch_token` presenting an authorization code to the
provider token endpoint: the request (recorded in the exchange log with the
redirect URI the flow is bound to) succeeds exactly when the code was
granted and has not been redeemed before; success redeems the code. -/
def fetch_token (env : Env) (w : World) (f : OAuthFlow) (code : String) :
    World × Except String Credentials :=
  let w1 := { w with exchange_log :=
      { code := code, redirect_uri := f.redirect_uri } :: w.exchange_log }
  if env.granted_codes.contains code && !(w1.used_codes.contains code) then
    ({ w1 with used_codes := code :: w1.used_codes },
     Except.ok { valid := true, expired := false, refresh_token := true })
  else
    (w1, Except.error "invalid_grant: code already redeemed or unknown")

/-- Lines 333-355: rebuild a web flow after session loss from
`credentials.json`, binding it to `redirect_uris[0]` of the `web` entry and
restoring the CSRF state from the callback parameters. -/
def reconstructFlow (cfg : ClientConfig) (q : QueryParams) : Except String OAuthFlow :=
  match cfg.web with
  | none => Except.error "KeyError: web"
  | some entry =>
      match entry.redirect_uris.head? with
      | none => Except.error "IndexError: list index out of range"
      | some uri =>
          Except.ok { client_type := ClientType.web, redirect_uri := uri,
                      csrf := q.state }

/-- Lines 375-378 and 387-389: drop the pending flow from the session and
clear the callback query parameters. -/
def clearCallbackSession (w : World) : World :=
  { w with session := { w.session with oauth_flow := none },
           query := { code := none, state := none } }

/-- Lines 324-390 and 433-461: process a web OAuth callback carrying `code`.
Reuse the session flow when present, else reconstruct one; exchange the
code; on success or failure remove the flow and clear the query parameters
(lines 375-378 and 387-389).  A failed exchange returns `auth_error` from
the inner `except`.  A successful exchange does not return yet: control
falls into the display section, whose `else` at line 444 is not guarded by
`not creds`, and its f-string reads the local `auth_url` that only the
skipped branches at lines 420 and 430 assign — the resulting
`UnboundLocalError` is caught by the outer handler at line 534, so the call
returns `auth_error` with the obtained credential discarded and the token
never saved. -/
def processWebCallback (env : Env) (w : World) (cfg : ClientConfig)
    (code : String) : FlowOutcome :=
  match w.session.oauth_flow with
  | some f =>
      let r := fetch_token env w f code
      (match r.2 with
       | Except.ok _ =>
           FlowOutcome.early (clearCallbackSession r.1)
             (AuthStatus.auth_error
               "UnboundLocalError: local variable auth_url referenced before assignment")
       | Except.error e =>
           FlowOutcome.early (clearCallbackSession r.1) (AuthStatus.auth_error e))
  | none =>
      match reconstructFlow cfg w.query with
      | Except.error e =>
          FlowOutcome.early (clearCallbackSession w) (AuthStatus.auth_error e)
      | Except.ok f =>
          let r := fetch_token env w f code
          (match r.2 with
           | Except.ok _ =>
               FlowOutcome.early (clearCallbackSession r.1)
                 (AuthStatus.auth_error
                   "UnboundLocalError: local variable auth_url referenced before assignment")
           | Except.error e =>
               FlowOutcome.early (clearCallbackSession r.1) (AuthStatus.auth_error e))

/-- Lines 394-426: build a fresh flow bound to `redirect_uris[0]` of the
entry for the detected client type, generate the authorization URL and CSRF
state, and store flow, URL and redirect URI in the session. -/
def generateFlow (env : Env) (cfg : ClientConfig) (ct : ClientType) (w : World) :
    Except String (World × OAuthFlow) :=
  match clientEntry cfg ct with
  | none => Except.error "KeyError: client type entry missing"
  | some entry =>
      match entry.redirect_uris.head? with
      | none => Except.error "IndexError: list index out of range"
      | some uri =>
          let f : OAuthFlow :=
            { client_type := ct, redirect_uri := uri, csrf := some env.fresh_csrf }
          let a : AuthorizationUrl :=
            { redirect_uri := uri, csrf_state := env.fresh_csrf }
          Except.ok
            ({ w with session :=
                { oauth_flow := some f, auth_url := some a,
                  redirect_uri := some uri } }, f)

/-- Lines 427-431: retrieve the pending flow, authorization URL and redirect
URI from the session; a missing key raises (caught by the outer handler). -/
def retrieveFlow (w : World) : Except String OAuthFlow :=
  match w.session.oauth_flow, w.session.auth_url, w.session.redirect_uri with
  | some f, some _, some _ => Except.ok f
  | _, _, _ => Except.error "KeyError: session flow state missing"

/-- Model of the oauthlib CSRF check inside
`fetch_token(authorization_response=...)`: when the flow holds a stored
state, the pasted response must carry the same state value. -/
def stateMismatch (f : OAuthFlow) (p : Pasted) : Bool :=
  match f.csrf with
  | some s => p.state != some s
  | none => false

/-- Lines 472-527: the manual installed-client exchange.  Without a pasted
URL, suspend with `awaiting_auth`; with one, exchange its code through the
pending flow; on success drop `oauth_flow` and `auth_url` from the session,
on failure return `auth_error` (the session is left as it is). -/
def processPastedUrl (env : Env) (w : World) (f : OAuthFlow) : FlowOutcome :=
  match env.pasted_url with
  | none => FlowOutcome.early w AuthStatus.awaiting_auth
  | some p =>
      if stateMismatch f p then
        FlowOutcome.early w (AuthStatus.auth_error "mismatching_state")
      else
        let r := fetch_token env w f p.code
        (match r.2 with
         | Except.ok c =>
             FlowOutcome.got
               { r.1 with session :=
                   { r.1.session with oauth_flow := none, auth_url := none } } c
         | Except.error e =>
             FlowOutcome.early r.1 (AuthStatus.auth_error e))

/-- Lines 392-527 for a request that did not complete a web callback:
reuse the pending session flow or generate a fresh one, then either suspend
(web) or run the manual paste exchange (installed). -/
def afterCallback (env : Env) (w : World) (cfg : ClientConfig) (ct : ClientType) :
    Except String FlowOutcome :=
  match w.session.oauth_flow with
  | none =>
      (match generateFlow env cfg ct w with
       | Except.error e => Except.error e
       | Except.ok wf =>
           Except.ok
             (if ct == ClientType.installed then processPastedUrl env wf.1 wf.2
              else FlowOutcome.early wf.1 AuthStatus.awaiting_auth))
  | some _ =>
      (match retrieveFlow w with
       | Except.error e => Except.error e
       | Except.ok f =>
           Except.ok
             (if ct == ClientType.installed then processPastedUrl env w f
              else FlowOutcome.early w AuthStatus.awaiting_auth))

/-- Lines 300-532: the body of the outer `try`.  On the cloud it parses
`credentials.json`, processes a pending web callback when `code` is present,
and otherwise drives the suspend-and-resume flow; locally it runs the
blocking browser flow.  An `Except.error` models an exception reaching the
outer handler from a raise that happens before any session mutation of this
call; the `UnboundLocalError` that the successful web-callback path runs
into at line 449 happens after the session cleanup and is folded into
`processWebCallback` as its `auth_error` early return. -/
def obtainCredentials (env : Env) (w : World) : Except String FlowOutcome :=
  let ct := get_oauth_client_type w.fs
  if env.is_cloud then
    match w.fs.credentials with
    | some (CredFileContent.config cfg) =>
        (match w.query.code with
         | some code =>
             if ct == ClientType.web then
               Except.ok (processWebCallback env w cfg code)
             else afterCallback env w cfg ct
         | none => afterCallback env w cfg ct)
    | some CredFileContent.malformed =>
        Except.error "json.decoder.JSONDecodeError: credentials.json"
    | none => Except.error "FileNotFoundError: credentials.json"
  else
    match w.fs.credentials with
    | some (CredFileContent.config cfg) =>
        if cfg.web.isNone && cfg.installed.isNone then
          Except.error "ValueError: invalid client secrets file"
        else
          (match env.local_auth with
           | some c => Except.ok (FlowOutcome.got w c)
           | none => Except.error "local server flow failed")
    | _ => Except.error "ValueError: invalid client secrets file"

/-- Lines 285-540: refresh or run the authorization flow, then persist the
obtained credential to `token.json` (lines 537-540).  The third component
is a pending early `return None, status`. -/
def authWithFlow (env : Env) (w0 : World) (creds0 : Option Credentials) :
    World × Option Credentials × Option AuthStatus :=
  let rs := refreshStep env creds0 w0
  match rs.1 with
  | some c =>
      ({ rs.2 with fs := { rs.2.fs with token := some (TokenContent.record c) } },
       some c, none)
  | none =>
      if rs.2.fs.credentials.isNone then
        (rs.2, none, some AuthStatus.credentials_missing)
      else
        match obtainCredentials env rs.2 with
        | Except.error e => (rs.2, none, some (AuthStatus.auth_error e))
        | Except.ok (FlowOutcome.early w2 st) => (w2, none, some st)
        | Except.ok (FlowOutcome.got w2 c) =>
            ({ w2 with fs := { w2.fs with token := some (TokenContent.record c) } },
             some c, none)

/-- Everything after the token load: the guard at line 285, the flow block,
and the service build of lines 542-553 (which toggles the process-wide SSL
state through `create_http_client`). -/
def finishAuth (env : Env) (dsv : Bool) (w0 : World)
    (creds0 : Option Credentials) : World × Option Service × AuthStatus :=
  let step :=
    if credsOptValid creds0 then (w0, creds0, (none : Option AuthStatus))
    else authWithFlow env w0 creds0
  match step.2.2 with
  | some st => (step.1, none, st)
  | none =>
      let w3 := { step.1 with ssl :=
          if dsv then enable_ssl_bypass step.1.ssl else disable_ssl_bypass step.1.ssl }
      if env.build_ok then (w3, some { creds := step.2.1 }, AuthStatus.success)
      else (w3, none, AuthStatus.service_error "failed to build calendar service")

/-- Embedding of `authenticate_google` (lines 270-553).  The result is the
final world together with the returned `(service, status)` pair; an
`Except.error` is an exception escaping the function, which only the
unguarded token load at line 282 can produce. -/
def authenticate_google (env : Env) (dsv : Bool) (w0 : World) :
    Except String (World × Option Service × AuthStatus) :=
  match loadCachedCredentials w0.fs with
  | Except.error e => Except.error e
  | Except.ok creds0 => Except.ok (finishAuth env dsv w0 creds0)

/-- One-call growth of the exchange log: unchanged, or one request bound to
redirect URI `u` prepended. -/
def logStep (u : String) (old new : List ExchangeRecord) : Prop :=
  new = old ∨ ∃ c, new = { code := c, redirect_uri := u } :: old

/-- The world a flow outcome carries. -/
def outcomeWorld : FlowOutcome → World
  | FlowOutcome.early w _ => w
  | FlowOutcome.got w _ => w

/-- Redirect-URI discipline of one call that takes world `w` to world `w2`:
every token-exchange request issued by the call went out bound to the
canonical URI `u`, every authorization URL the call stored embeds `u`
(pre-existing ones are passed through unchanged), and every flow left in
the session is bound to `u`. -/
def uriDiscipline (u : String) (w w2 : World) : Prop :=
  logStep u w.exchange_log w2.exchange_log ∧
  (∀ a, w2.session.auth_url = some a →
      w.session.auth_url = some a ∨ a.redirect_uri = u) ∧
  (∀ g, w2.session.oauth_flow = some g → g.redirect_uri = u)

/- ## Credential persistence at byte granularity (lines 537-540 and 281-282) -/

/-- The fields of the serialized authorized-user record produced by
`creds.to_json()` and written to `token.json`. -/
structure TokenJson where
  token : String
  refresh_token : String
  token_uri : String
  client_id : String
  client_secret : String
  scopes : String
  expiry : String
deriving DecidableEq

/-- One `"key": "value"` member of the serialized JSON object. -/
def jsonMember (k v : String) : List Char :=
  '"' :: k.data ++ '"' :: ':' :: ' ' :: '"' :: v.data ++ ['"']

/-- Member separator of the serialized JSON object. -/
def jsonSep : List Char := [',', ' ']

/-- Interior of the JSON object written by `token.write(creds.to_json())`. -/
def jsonBody (t : TokenJson) : List Char :=
  jsonMember "token" t.token ++ jsonSep ++
  jsonMember "refresh_token" t.refresh_token ++ jsonSep ++
  jsonMember "token_uri" t.token_uri ++ jsonSep ++
  jsonMember "client_id" t.client_id ++ jsonSep ++
  jsonMember "client_secret" t.client_secret ++ jsonSep ++
  jsonMember "scopes" t.scopes ++ jsonSep ++
  jsonMember "expiry" t.expiry

/-- The byte sequence `creds.to_json()` writes: a single flat JSON object. -/
def to_json (t : TokenJson) : List Char :=
  '\x7b' :: jsonBody t ++ ['\x7d']

/-- Scanner tracking brace depth: accepts when the depth returns to zero
exactly at the end of the input. -/
def jsonScan : Nat → List Char → Bool
  | 0, rest => rest.isEmpty
  | _ + 1, [] => false
  | d + 1, c :: rest =>
      if c = '\x7b' then jsonScan (d + 2) rest
      else if c = '\x7d' then jsonScan d rest
      else jsonScan (d + 1) rest

/-- Necessary condition for `json.loads` (inside
`Credentials.from_authorized_user_file`) to accept a byte sequence as a
record: it is one complete JSON object. -/
def jsonComplete : List Char → Bool
  | '\x7b' :: rest => jsonScan 1 rest
  | _ => false

/-- A character sequence containing no brace characters. -/
def braceFree (l : List Char) : Bool :=
  l.all (fun c => !(c = '\x7b') && !(c = '\x7d'))

/-- All field values of the record are brace-free (true of OAuth tokens,
URIs, scopes and timestamps). -/
def braceFreeTok (t : TokenJson) : Bool :=
  braceFree t.token.data && braceFree t.refresh_token.data &&
  braceFree t.token_uri.data && braceFree t.client_id.data &&
  braceFree t.client_secret.data && braceFree t.scopes.data &&
  braceFree t.expiry.data

/- ## Event colour filter (get_calendar_events, lines 577-634) -/

/-- Module constant `CALENDAR_COLORS` (lines 40-52): colorId to name. -/
def CALENDAR_COLORS : List (String × String) :=
  [("1", "Lavender"), ("2", "Sage"), ("3", "Grape"), ("4", "Flamingo"),
   ("5", "Banana"), ("6", "Tangerine"), ("7", "Peacock"), ("8", "Graphite"),
   ("9", "Blueberry"), ("10", "Basil"), ("11", "Tomato")]

/-- Module constant `COLOR_NAMES` (lines 55-56). -/
def COLOR_NAMES : List String :=
  ["Lavender", "Sage", "Grape", "Flamingo", "Banana", "Tangerine",
   "Peacock", "Graphite", "Blueberry", "Basil", "Tomato", "Default"]

/-- A calendar event as the filter observes it: an identifier and the
optional event-specific `colorId` field. -/
structure Event where
  id : String
  colorId : Option String
deriving DecidableEq

/-- Line 594: selected colour names converted to colour ids. -/
def color_ids (selected_colors : List String) : List String :=
  (CALENDAR_COLORS.filter (fun p => selected_colors.contains p.2)).map
    (fun p => p.1)

/-- Lines 617-628: an event is kept when its colorId is among the selected
ids, or when it has no colorId and some colour is selected. -/
def eventIncluded (cids : List String) (selected_colors : List String)
    (e : Event) : Bool :=
  match e.colorId with
  | some cid => cids.contains cid
  | none => !selected_colors.isEmpty

/-- Embedding of the pure part of `get_calendar_events` (lines 577-634):
given the event lists fetched from the selected calendars, accumulate the
events passing the colour filter. -/
def get_calendar_events (fetched : List (List Event))
    (selected_colors : List String) : List Event :=
  let cids := color_ids selected_colors
  fetched.foldl (fun acc evs => acc ++ evs.filter (eventIncluded cids selected_colors)) []

/- ## Settings persistence (load_settings, lines 75-96) -/

/-- Minimal JSON value universe for the settings dictionary. -/
inductive JVal
  | str (s : String)
  | num (n : Int)
  | boolean (b : Bool)
  | arr (xs : List JVal)
  | obj (fields : List (String × JVal))

/-- The `default_settings` dictionary of lines 79-85. -/
def default_settings : List (String × JVal) :=
  [("selected_calendar_ids", JVal.arr []),
   ("color_selections", JVal.obj (COLOR_NAMES.map (fun c => (c, JVal.boolean true)))),
   ("color_type_mapping", JVal.obj []),
   ("start_days_ago", JVal.num 30),
   ("csv_filename_template", JVal.str "calendar_export_\x7bdate\x7d.csv")]

/-- Membership of a key in an association-list dictionary. -/
def hasKey (d : List (String × JVal)) (k : String) : Bool :=
  d.any (fun p => p.1 == k)

/-- Single-key assignment `d[k] = v` of a Python dict. -/
def dictInsert (d : List (String × JVal)) (k : String) (v : JVal) :
    List (String × JVal) :=
  if hasKey d k then d.map (fun p => if p.1 == k then (k, v) else p)
  else d ++ [(k, v)]

/-- Python `dict.update`: assign every pair of `saved` into `d`. -/
def dictUpdate (d : List (String × JVal)) (saved : List (String × JVal)) :
    List (String × JVal) :=
  saved.foldl (fun acc p => dictInsert acc p.1 p.2) d

/-- The filesystem as `load_settings` observes it: the settings file is
missing, present but rejected by `json.load`, or parsed to a JSON object. -/
inductive SettingsFile
  | missing
  | unreadable
  | parsed (saved : List (String × JVal))

/-- Embedding of `load_settings` (lines 75-96): defaults when the file is
missing or unreadable (the `except` swallows the failure), else the
defaults updated with the saved top-level keys. -/
def load_settings : SettingsFile → List (String × JVal)
  | SettingsFile.missing => default_settings
  | SettingsFile.unreadable => default_settings
  | SettingsFile.parsed saved => dictUpdate default_settings saved

theorem sslInv_initial (c0 : Nat) : sslInv c0 (initialSsl c0) := by
  refine ⟨Or.inl rfl, fun _ => rfl, fun h => ?_⟩
  simp [initialSsl] at h

theorem sslInv_enable {c0 : Nat} {s : SslState} (h : sslInv c0 s) :
    sslInv c0 (enable_ssl_bypass s) := by
  obtain ⟨h1, h2, h3⟩ := h
  unfold enable_ssl_bypass
  by_cases hb : s.bypassEnabled
  · simpa [hb] using ⟨h1, h2, h3⟩
  · simp only [hb, if_false, Bool.false_eq_true]
    rcases h1 with h1 | h1
    · refine ⟨Or.inr ?_, ?_, ?_⟩ <;>
        simp [h1, Option.isNone, h2 (by simpa using hb)]
    · refine ⟨Or.inr ?_, ?_, ?_⟩ <;> simp [h1, Option.isNone]

theorem sslInv_disable {c0 : Nat} {s : SslState} (h : sslInv c0 s) :
    sslInv c0 (disable_ssl_bypass s) := by
  obtain ⟨h1, h2, h3⟩ := h
  unfold disable_ssl_bypass
  by_cases hb : s.bypassEnabled
  · have ho := h3 hb
    simp only [hb, ho, Option.isSome_some, Bool.and_self, if_true]
    exact ⟨Or.inr (by simp), fun _ => by simp, fun hc => by simp at hc⟩
  · simp only [hb, Bool.false_and, if_false, Bool.false_eq_true]
    exact ⟨h1, h2, h3⟩

theorem sslInv_applyOps {c0 : Nat} (ops : List SslOp) {s : SslState}
    (h : sslInv c0 s) : sslInv c0 (applySslOps s ops) := by
  induction ops generalizing s with
  | nil => exact h
  | cons op rest ih =>
      cases op with
      | enableOp => exact ih (sslInv_enable h)
      | disableOp => exact ih (sslInv_disable h)

theorem sslInv_enabled_state {c0 : Nat} {s : SslState} (h : sslInv c0 s) :
    (enable_ssl_bypass s).bypassEnabled = true ∧
    (enable_ssl_bypass s).orig = some c0 := by
  obtain ⟨h1, h2, h3⟩ := h
  unfold enable_ssl_bypass
  by_cases hb : s.bypassEnabled
  · simp [hb, h3 hb]
  · rcases h1 with h1 | h1 <;>
      simp [hb, h1, Option.isNone, h2 (by simpa using hb)]

theorem disable_restores_ctx {c0 : Nat} {s : SslState}
    (hb : s.bypassEnabled = true) (ho : s.orig = some c0) :
    (disable_ssl_bypass s).ctx = c0 := by
  unfold disable_ssl_bypass
  rw [hb, ho]
  simp

theorem sslInv_iterate_enable {c0 : Nat} (n : Nat) {s : SslState}
    (h : sslInv c0 s) :
    (Nat.iterate enable_ssl_bypass (n + 1) s).bypassEnabled = true ∧
    (Nat.iterate enable_ssl_bypass (n + 1) s).orig = some c0 := by
  induction n generalizing s with
  | zero => simpa [Function.iterate_succ_apply] using sslInv_enabled_state h
  | succ m ih =>
      rw [Function.iterate_succ_apply]
      exact ih (sslInv_enable h)

/-- C2.  Transport-mode round trip: from the pristine process state, after any
sequence of bypass toggles followed by one or more calls to
`enable_ssl_bypass` and then one `disable_ssl_bypass`, the installed HTTPS
context factory is exactly the pristine one, and the saved original captured
on first activation is still exactly the pristine factory (captured once,
reused for every restore). -/
theorem ssl_bypass_roundtrip (c0 : Nat) (ops : List SslOp) (n : Nat) :
    (disable_ssl_bypass
        (Nat.iterate enable_ssl_bypass (n + 1) (applySslOps (initialSsl c0) ops))).ctx = c0 ∧
    (Nat.iterate enable_ssl_bypass (n + 1) (applySslOps (initialSsl c0) ops)).orig = some c0 := by
  have hreach : sslInv c0 (applySslOps (initialSsl c0) ops) :=
    sslInv_applyOps ops (sslInv_initial c0)
  obtain ⟨hb, ho⟩ := sslInv_iterate_enable n hreach
  exact ⟨disable_restores_ctx hb ho, ho⟩

/- ## Claim theorems: the credential lifecycle -/

/-- C7.  Cached-credential fast path: for a valid, non-expired persisted
record, `authenticate_google` returns the service handle with status
`success`; the only world change is the SSL toggle of `create_http_client`
(lines 542-553) — the session, query parameters, files, redeemed codes and
exchange log are untouched, so no authorization URL is generated and no
request reaches the authorization endpoint. -/
theorem cached_credential_fast_path (env : Env) (dsv : Bool) (w : World)
    (c : Credentials) (htok : w.fs.token = some (TokenContent.record c))
    (hv : c.valid = true) (hexp : c.expired = false)
    (hb : env.build_ok = true) :
    authenticate_google env dsv w =
      Except.ok
        ({ w with ssl :=
            if dsv then enable_ssl_bypass w.ssl else disable_ssl_bypass w.ssl },
         some { creds := some c }, AuthStatus.success) := by
  unfold authenticate_google loadCachedCredentials from_authorized_user_file
  rw [htok]
  unfold finishAuth credsOptValid
  simp [hv, hb]

theorem cached_credential_fast_path_witness :
    authenticate_google ⟨true, "s", true, [], none, none, true⟩ false
      ⟨⟨some (TokenContent.record ⟨true, false, true⟩), none⟩,
       ⟨none, none, none⟩, ⟨none, none⟩, ⟨7, none, false⟩, [], []⟩ =
      Except.ok
        (⟨⟨some (TokenContent.record ⟨true, false, true⟩), none⟩,
          ⟨none, none, none⟩, ⟨none, none⟩, ⟨7, none, false⟩, [], []⟩,
         some { creds := some ⟨true, false, true⟩ }, AuthStatus.success) :=
  cached_credential_fast_path _ _ _ _ rfl rfl rfl rfl

/-- C6.  Refresh-failure handling: when the cached credential is expired
with a refresh token present and the refresh attempt fails, the refresh
step deletes `token.json` and yields no credential, and the whole call
behaves exactly as if the token file had been absent from the start — the
fresh authorization flow is triggered, with no retry and no uncaught
failure. -/
theorem refresh_failure_resets (env : Env) (dsv : Bool) (w : World)
    (c : Credentials) (htok : w.fs.token = some (TokenContent.record c))
    (hv : c.valid = false) (hexp : c.expired = true)
    (hrt : c.refresh_token = true) (hfail : env.refresh_ok = false) :
    refreshStep env (some c) w =
      (none, { w with fs := { w.fs with token := none } }) ∧
    authenticate_google env dsv w =
      authenticate_google env dsv { w with fs := { w.fs with token := none } } := by
  constructor
  · unfold refreshStep
    simp [hexp, hrt, hfail]
  · unfold authenticate_google loadCachedCredentials from_authorized_user_file
    rw [htok]
    unfold finishAuth credsOptValid authWithFlow refreshStep
    simp [hv, hexp, hrt, hfail]

theorem refresh_failure_resets_witness :
    (refreshStep ⟨true, "s", false, [], none, none, true⟩ (some ⟨false, true, true⟩)
        ⟨⟨some (TokenContent.record ⟨false, true, true⟩), none⟩,
         ⟨none, none, none⟩, ⟨none, none⟩, ⟨7, none, false⟩, [], []⟩ =
      (none,
       ⟨⟨none, none⟩, ⟨none, none, none⟩, ⟨none, none⟩, ⟨7, none, false⟩, [], []⟩)) ∧
    authenticate_google ⟨true, "s", false, [], none, none, true⟩ false
        ⟨⟨some (TokenContent.record ⟨false, true, true⟩), none⟩,
         ⟨none, none, none⟩, ⟨none, none⟩, ⟨7, none, false⟩, [], []⟩ =
      authenticate_google ⟨true, "s", false, [], none, none, true⟩ false
        ⟨⟨none, none⟩, ⟨none, none, none⟩, ⟨none, none⟩, ⟨7, none, false⟩, [], []⟩ :=
  refresh_failure_resets _ _ _ _ rfl rfl rfl rfl rfl

/-- C1.  Idempotence of the pending flow: when a pending flow, its
authorization URL and its redirect URI are stored in the session and the
call carries neither a callback code nor a pasted URL, a repeated
`authenticate_google` returns `awaiting_auth` with the world unchanged —
the stored flow object, authorization URL and CSRF state are reused as they
are, and no new authorization URL or CSRF state is generated (the result
does not depend on `env.fresh_csrf`). -/
theorem pending_flow_idempotent (env : Env) (dsv : Bool) (w : World)
    (cfg : ClientConfig) (f : OAuthFlow) (a : AuthorizationUrl) (r : String)
    (hcloud : env.is_cloud = true) (hpaste : env.pasted_url = none)
    (htok : w.fs.token = none)
    (hcred : w.fs.credentials = some (CredFileContent.config cfg))
    (hflow : w.session.oauth_flow = some f)
    (hurl : w.session.auth_url = some a)
    (hruri : w.session.redirect_uri = some r)
    (hq : w.query.code = none) :
    authenticate_google env dsv w = Except.ok (w, none, AuthStatus.awaiting_auth) := by
  unfold authenticate_google loadCachedCredentials
  rw [htok]
  unfold finishAuth credsOptValid authWithFlow refreshStep obtainCredentials
    afterCallback retrieveFlow processPastedUrl
  simp [hcloud, hcred, hflow, hurl, hruri, hq, hpaste]

theorem pending_flow_idempotent_witness :
    authenticate_google ⟨true, "NEW", true, [], none, none, true⟩ false
      ⟨⟨none, some (CredFileContent.config ⟨some ⟨["https://app/cb"]⟩, none⟩)⟩,
       ⟨some ⟨ClientType.web, "https://app/cb", some "S1"⟩,
        some ⟨"https://app/cb", "S1"⟩, some "https://app/cb"⟩,
       ⟨none, none⟩, ⟨0, none, false⟩, [], []⟩ =
      Except.ok
        (⟨⟨none, some (CredFileContent.config ⟨some ⟨["https://app/cb"]⟩, none⟩)⟩,
          ⟨some ⟨ClientType.web, "https://app/cb", some "S1"⟩,
           some ⟨"https://app/cb", "S1"⟩, some "https://app/cb"⟩,
          ⟨none, none⟩, ⟨0, none, false⟩, [], []⟩,
         none, AuthStatus.awaiting_auth) :=
  pending_flow_idempotent _ _ _ ⟨some ⟨["https://app/cb"]⟩, none⟩
    ⟨ClientType.web, "https://app/cb", some "S1"⟩ ⟨"https://app/cb", "S1"⟩
    "https://app/cb" rfl rfl rfl rfl rfl rfl rfl rfl

/-- C3 (counterexample).  A present-but-malformed `token.json` makes
`Credentials.from_authorized_user_file` raise at line 282, outside every
`try` block, so the exception escapes `authenticate_google` instead of
being returned as a status value. -/
theorem token_load_raises_cex :
    authenticate_google ⟨true, "s", true, [], none, none, true⟩ false
      ⟨⟨some TokenContent.malformed, none⟩, ⟨none, none, none⟩,
       ⟨none, none⟩, ⟨0, none, false⟩, [], []⟩ =
      Except.error "token.json: invalid authorized user info" := rfl

/-- C3 (amended).  Error containment holds for every token-file content
except present-but-malformed: a missing file is treated as an absent
credential, and every failure inside the refresh and authorization-flow
branches is caught and returned as a status value, so the call never
raises. -/
theorem auth_status_totality (env : Env) (dsv : Bool) (w : World)
    (h : w.fs.token ≠ some TokenContent.malformed) :
    ∃ r, authenticate_google env dsv w = Except.ok r := by
  unfold authenticate_google loadCachedCredentials
  cases htok : w.fs.token with
  | none => exact ⟨_, rfl⟩
  | some tc =>
      cases tc with
      | malformed => exact absurd htok h
      | record c => exact ⟨_, rfl⟩

theorem auth_status_totality_witness :
    ∃ r, authenticate_google ⟨false, "s", true, [], none, none, true⟩ false
      ⟨⟨none, none⟩, ⟨none, none, none⟩, ⟨none, none⟩, ⟨0, none, false⟩, [], []⟩ =
      Except.ok r :=
  auth_status_totality _ _ _ (by decide)

/- ## Claim theorems: the colour filter -/

theorem foldl_filter_append (p : Event → Bool) (L : List (List Event))
    (acc : List Event) :
    L.foldl (fun acc evs => acc ++ evs.filter p) acc = acc ++ L.join.filter p := by
  induction L generalizing acc with
  | nil => simp
  | cons x xs ih => simp [ih, List.filter_append, List.append_assoc]

/-- C9.  Colourless events bypass the colour filter: whenever the selected
colour list is non-empty, every fetched event without a `colorId` field is
included in the result of `get_calendar_events`, whatever the selected
colour names are. -/
theorem colorless_events_included (fetched : List (List Event))
    (sel : List String) (e : Event) (hsel : sel ≠ [])
    (he : e ∈ fetched.join) (hc : e.colorId = none) :
    e ∈ get_calendar_events fetched sel := by
  unfold get_calendar_events
  rw [foldl_filter_append]
  simp only [List.nil_append, List.mem_filter]
  refine ⟨he, ?_⟩
  simp [eventIncluded, hc, List.isEmpty_iff, hsel]

theorem colorless_events_included_witness :
    (["Lavender"] : List String) ≠ [] ∧
    (⟨"e1", none⟩ : Event) ∈ ([[⟨"e1", none⟩]] : List (List Event)).join ∧
    (⟨"e1", none⟩ : Event) ∈ get_calendar_events [[⟨"e1", none⟩]] ["Lavender"] :=
  ⟨by decide, by decide,
   colorless_events_included [[⟨"e1", none⟩]] ["Lavender"] ⟨"e1", none⟩
     (by decide) (by decide) rfl⟩

/- ## Claim theorems: settings persistence -/

theorem lookup_of_hasKey_false {d : List (String × JVal)} {k : String}
    (h : hasKey d k = false) : List.lookup k d = none := by
  induction d with
  | nil => rfl
  | cons p rest ih =>
      unfold hasKey at h
      simp only [List.any_cons, Bool.or_eq_false_iff] at h
      obtain ⟨h1, h2⟩ := h
      have hne : k ≠ p.1 := by
        intro he
        simp [he] at h1
      have hbeq : (k == p.1) = false := beq_eq_false_iff_ne.mpr hne
      simp only [List.lookup, hbeq]
      exact ih h2

theorem lookup_append_of_none {d l : List (String × JVal)} {k : String}
    (h : List.lookup k d = none) :
    List.lookup k (d ++ l) = List.lookup k l := by
  induction d with
  | nil => rfl
  | cons p rest ih =>
      by_cases he : k = p.1
      · simp [List.lookup, he] at h
      · have hbeq : (k == p.1) = false := beq_eq_false_iff_ne.mpr he
        simp only [List.cons_append, List.lookup, hbeq] at h ⊢
        exact ih h

theorem lookup_dictInsert_self (d : List (String × JVal)) (k : String) (v : JVal) :
    List.lookup k (dictInsert d k v) = some v := by
  unfold dictInsert
  by_cases hk : hasKey d k = true
  · rw [if_pos hk]
    induction d with
    | nil => simp [hasKey] at hk
    | cons p rest ih =>
        by_cases he : p.1 = k
        · have hred : (if (p.1 == k) = true then (k, v) else p) = (k, v) :=
            if_pos (beq_iff_eq.mpr he)
          rw [List.map_cons, hred]
          simp [List.lookup]
        · have hbeq : (p.1 == k) = false := beq_eq_false_iff_ne.mpr he
          have hbeq2 : (k == p.1) = false :=
            beq_eq_false_iff_ne.mpr (fun hx => he hx.symm)
          have hred : (if (p.1 == k) = true then (k, v) else p) = p :=
            if_neg (by simp [hbeq])
          rw [List.map_cons, hred]
          unfold hasKey at hk
          simp only [List.any_cons, hbeq, Bool.false_or] at hk
          simp only [List.lookup, hbeq2]
          exact ih hk
  · rw [if_neg hk]
    have hnone : List.lookup k d = none :=
      lookup_of_hasKey_false (by simpa using hk)
    rw [lookup_append_of_none hnone]
    simp [List.lookup]

theorem lookup_dictInsert_other {k k2 : String} (hne : k ≠ k2)
    (d : List (String × JVal)) (v : JVal) :
    List.lookup k (dictInsert d k2 v) = List.lookup k d := by
  unfold dictInsert
  by_cases hk : hasKey d k2 = true
  · rw [if_pos hk]
    clear hk
    induction d with
    | nil => rfl
    | cons p rest ih =>
        by_cases he : p.1 = k2
        · have hred : (if (p.1 == k2) = true then (k2, v) else p) = (k2, v) :=
            if_pos (beq_iff_eq.mpr he)
          rw [List.map_cons, hred]
          have hb1 : (k == p.1) = false :=
            beq_eq_false_iff_ne.mpr (by rw [he]; exact hne)
          have hb2 : (k == k2) = false := beq_eq_false_iff_ne.mpr hne
          simp only [List.lookup, hb1, hb2]
          exact ih
        · have hbeq : (p.1 == k2) = false := beq_eq_false_iff_ne.mpr he
          have hred : (if (p.1 == k2) = true then (k2, v) else p) = p :=
            if_neg (by simp [hbeq])
          rw [List.map_cons, hred]
          simp only [List.lookup]
          cases hkk : (k == p.1) with
          | true => rfl
          | false => exact ih
  · rw [if_neg hk]
    have hnone : List.lookup k2 d = none :=
      lookup_of_hasKey_false (by simpa using hk)
    clear hk
    induction d with
    | nil =>
        have hb : (k == k2) = false := beq_eq_false_iff_ne.mpr hne
        simp [List.lookup, hb]
    | cons p rest ih =>
        simp only [List.cons_append, List.lookup]
        cases hkk : (k == p.1) with
        | true => rfl
        | false =>
            simp only [List.lookup] at hnone
            cases hk2p : (k2 == p.1) with
            | true => simp [hk2p] at hnone
            | false =>
                rw [hk2p] at hnone
                exact ih hnone

theorem dictUpdate_cons (d : List (String × JVal)) (p : String × JVal)
    (rest : List (String × JVal)) :
    dictUpdate d (p :: rest) = dictUpdate (dictInsert d p.1 p.2) rest := rfl

theorem lookup_dictUpdate_isSome {d : List (String × JVal)} {k : String}
    (h : (List.lookup k d).isSome = true) (saved : List (String × JVal)) :
    (List.lookup k (dictUpdate d saved)).isSome = true := by
  induction saved generalizing d with
  | nil => exact h
  | cons p rest ih =>
      rw [dictUpdate_cons]
      refine ih ?_
      by_cases he : k = p.1
      · rw [he, lookup_dictInsert_self]
        rfl
      · rw [lookup_dictInsert_other he]
        exact h

theorem lookup_dictUpdate_notin {k : String} {saved : List (String × JVal)}
    (h : k ∉ saved.map Prod.fst) (d : List (String × JVal)) :
    List.lookup k (dictUpdate d saved) = List.lookup k d := by
  induction saved generalizing d with
  | nil => rfl
  | cons p rest ih =>
      simp only [List.map_cons, List.mem_cons] at h
      push_neg at h
      rw [dictUpdate_cons, ih h.2, lookup_dictInsert_other h.1]

theorem lookup_dictUpdate_override {saved : List (String × JVal)}
    (hnd : (saved.map Prod.fst).Nodup) {k : String} {v : JVal}
    (h : List.lookup k saved = some v) (d : List (String × JVal)) :
    List.lookup k (dictUpdate d saved) = some v := by
  induction saved generalizing d with
  | nil => simp [List.lookup] at h
  | cons p rest ih =>
      simp only [List.map_cons, List.nodup_cons] at hnd
      rw [dictUpdate_cons]
      by_cases he : k = p.1
      · have hb : (k == p.1) = true := beq_iff_eq.mpr he
        simp only [List.lookup, hb] at h
        have hnotin : k ∉ rest.map Prod.fst := by
          rw [he]
          exact hnd.1
        rw [lookup_dictUpdate_notin hnotin, he, lookup_dictInsert_self]
        exact h
      · have hb : (k == p.1) = false := beq_eq_false_iff_ne.mpr he
        simp only [List.lookup, hb] at h
        exact ih hnd.2 h _

/-- C10.  Settings load is total with complete defaults: for every
filesystem state `load_settings` returns a dictionary containing all five
default keys; a missing or unparseable file yields the defaults unchanged;
a parsed file has its top-level keys override the corresponding defaults
(JSON objects have distinct keys, hence the `Nodup` hypothesis). -/
theorem load_settings_total_defaults (file : SettingsFile) :
    ((List.lookup "selected_calendar_ids" (load_settings file)).isSome = true ∧
     (List.lookup "color_selections" (load_settings file)).isSome = true ∧
     (List.lookup "color_type_mapping" (load_settings file)).isSome = true ∧
     (List.lookup "start_days_ago" (load_settings file)).isSome = true ∧
     (List.lookup "csv_filename_template" (load_settings file)).isSome = true) ∧
    load_settings SettingsFile.missing = default_settings ∧
    load_settings SettingsFile.unreadable = default_settings ∧
    (∀ saved k v, file = SettingsFile.parsed saved →
      (saved.map Prod.fst).Nodup → List.lookup k saved = some v →
      List.lookup k (load_settings file) = some v) := by
  refine ⟨?_, rfl, rfl, ?_⟩
  · cases file with
    | missing => exact ⟨rfl, rfl, rfl, rfl, rfl⟩
    | unreadable => exact ⟨rfl, rfl, rfl, rfl, rfl⟩
    | parsed saved =>
        have hs : ∀ k : String, (List.lookup k default_settings).isSome = true →
            (List.lookup k (load_settings (SettingsFile.parsed saved))).isSome = true :=
          fun _ hk => lookup_dictUpdate_isSome hk saved
        exact ⟨hs _ (by decide), hs _ (by decide), hs _ (by decide),
               hs _ (by decide), hs _ (by decide)⟩
  · intro saved k v heq hnd hl
    subst heq
    exact lookup_dictUpdate_override hnd hl _

theorem load_settings_total_defaults_witness :
    List.lookup "start_days_ago"
      (load_settings (SettingsFile.parsed [("start_days_ago", JVal.num 7)])) =
      some (JVal.num 7) ∧
    (List.lookup "csv_filename_template"
      (load_settings (SettingsFile.parsed [("start_days_ago", JVal.num 7)]))).isSome =
      true := by
  have h := load_settings_total_defaults
    (SettingsFile.parsed [("start_days_ago", JVal.num 7)])
  exact ⟨h.2.2.2 _ "start_days_ago" (JVal.num 7) rfl (by decide) rfl,
         h.1.2.2.2.2⟩

/- ## Claim theorems: credential persistence at byte granularity -/

theorem braceFree_append (a b : List Char) :
    braceFree (a ++ b) = (braceFree a && braceFree b) := by
  unfold braceFree
  exact List.all_append

theorem braceFree_cons (c : Char) (l : List Char) :
    braceFree (c :: l) = ((!(c = '\x7b') && !(c = '\x7d')) && braceFree l) := by
  unfold braceFree
  simp [List.all_cons]

theorem braceFree_take {l : List Char} (h : braceFree l = true) (n : Nat) :
    braceFree (l.take n) = true := by
  unfold braceFree at h ⊢
  rw [List.all_eq_true] at h ⊢
  exact fun c hc => h c (List.take_subset n l hc)

theorem jsonScan_braceFree {l : List Char} (h : braceFree l = true) (d : Nat) :
    jsonScan (d + 1) l = false := by
  induction l generalizing d with
  | nil => rfl
  | cons c rest ih =>
      rw [braceFree_cons] at h
      simp only [Bool.and_eq_true, Bool.not_eq_eq_eq_not, Bool.not_true,
        decide_eq_false_iff_not] at h
      unfold jsonScan
      rw [if_neg h.1.1, if_neg h.1.2]
      exact ih h.2 d

theorem jsonScan_closes {l : List Char} (h : braceFree l = true) :
    jsonScan 1 (l ++ ['\x7d']) = true := by
  induction l with
  | nil => rfl
  | cons c rest ih =>
      rw [braceFree_cons] at h
      simp only [Bool.and_eq_true, Bool.not_eq_eq_eq_not, Bool.not_true,
        decide_eq_false_iff_not] at h
      rw [List.cons_append]
      unfold jsonScan
      rw [if_neg h.1.1, if_neg h.1.2]
      exact ih h.2

theorem braceFree_jsonMember {k v : String} (hk : braceFree k.data = true)
    (hv : braceFree v.data = true) : braceFree (jsonMember k v) = true := by
  have h1 : braceFree ['"'] = true := by decide
  have h0 : braceFree [] = true := rfl
  unfold jsonMember
  simp [braceFree_cons, braceFree_append, hk, hv, h0, h1]

theorem braceFree_jsonBody {t : TokenJson} (h : braceFreeTok t = true) :
    braceFree (jsonBody t) = true := by
  unfold braceFreeTok at h
  simp only [Bool.and_eq_true] at h
  obtain ⟨⟨⟨⟨⟨⟨h1, h2⟩, h3⟩, h4⟩, h5⟩, h6⟩, h7⟩ := h
  have hsep : braceFree jsonSep = true := by decide
  have hk1 : braceFree ("token".data) = true := by decide
  have hk2 : braceFree ("refresh_token".data) = true := by decide
  have hk3 : braceFree ("token_uri".data) = true := by decide
  have hk4 : braceFree ("client_id".data) = true := by decide
  have hk5 : braceFree ("client_secret".data) = true := by decide
  have hk6 : braceFree ("scopes".data) = true := by decide
  have hk7 : braceFree ("expiry".data) = true := by decide
  unfold jsonBody
  simp [braceFree_append, hsep,
    braceFree_jsonMember hk1 h1, braceFree_jsonMember hk2 h2,
    braceFree_jsonMember hk3 h3, braceFree_jsonMember hk4 h4,
    braceFree_jsonMember hk5 h5, braceFree_jsonMember hk6 h6,
    braceFree_jsonMember hk7 h7]

/-- C4.  Atomic save of the credential record: the full serialized record is
one complete JSON object, and every strict byte prefix left by a crash
between write-start and write-end fails the completeness check that
`json.loads` performs inside `Credentials.from_authorized_user_file`, so a
subsequent load never treats a partially written record as a valid
credential. -/
theorem partial_token_write_never_valid (t : TokenJson)
    (h : braceFreeTok t = true) :
    jsonComplete (to_json t) = true ∧
    ∀ k, k < (to_json t).length → jsonComplete ((to_json t).take k) = false := by
  have hbody := braceFree_jsonBody h
  constructor
  · unfold to_json jsonComplete
    exact jsonScan_closes hbody
  · intro k hk
    unfold to_json at hk ⊢
    cases k with
    | zero => rfl
    | succ j =>
        simp only [List.length_append, List.length_cons,
          List.length_nil] at hk
        have hj1 : j + 1 ≤ ('\x7b' :: jsonBody t).length := by
          simp only [List.length_cons]
          omega
        rw [List.take_append_of_le_length hj1, List.take_succ_cons]
        unfold jsonComplete
        exact jsonScan_braceFree (braceFree_take hbody j) 0

theorem partial_token_write_never_valid_witness :
    braceFreeTok ⟨"ya29.a0", "1//rt", "https://oauth2.googleapis.com/token",
      "id.apps.googleusercontent.com", "secret",
      "https://www.googleapis.com/auth/calendar.readonly",
      "2024-01-01T00:00:00Z"⟩ = true ∧
    (jsonComplete (to_json ⟨"ya29.a0", "1//rt",
        "https://oauth2.googleapis.com/token",
        "id.apps.googleusercontent.com", "secret",
        "https://www.googleapis.com/auth/calendar.readonly",
        "2024-01-01T00:00:00Z"⟩) = true ∧
      ∀ k, k < (to_json ⟨"ya29.a0", "1//rt",
          "https://oauth2.googleapis.com/token",
          "id.apps.googleusercontent.com", "secret",
          "https://www.googleapis.com/auth/calendar.readonly",
          "2024-01-01T00:00:00Z"⟩).length →
        jsonComplete ((to_json ⟨"ya29.a0", "1//rt",
          "https://oauth2.googleapis.com/token",
          "id.apps.googleusercontent.com", "secret",
          "https://www.googleapis.com/auth/calendar.readonly",
          "2024-01-01T00:00:00Z"⟩).take k) = false) :=
  ⟨by decide, partial_token_write_never_valid _ (by decide)⟩

/- ## Claim theorems: redirect URI discipline -/

theorem fetch_token_session (env : Env) (w : World) (f : OAuthFlow)
    (code : String) : (fetch_token env w f code).1.session = w.session := by
  unfold fetch_token
  dsimp only
  split <;> rfl

theorem fetch_token_log (env : Env) (w : World) (f : OAuthFlow)
    (code : String) :
    (fetch_token env w f code).1.exchange_log =
      { code := code, redirect_uri := f.redirect_uri } :: w.exchange_log := by
  unfold fetch_token
  dsimp only
  split <;> rfl

theorem clearCallbackSession_log (w : World) :
    (clearCallbackSession w).exchange_log = w.exchange_log := rfl

theorem clearCallbackSession_auth_url (w : World) :
    (clearCallbackSession w).session.auth_url = w.session.auth_url := rfl

theorem clearCallbackSession_flow (w : World) :
    (clearCallbackSession w).session.oauth_flow = none := rfl

theorem uriDiscipline_refl {u : String} {w : World}
    (hflow : ∀ g, w.session.oauth_flow = some g → g.redirect_uri = u) :
    uriDiscipline u w w :=
  ⟨Or.inl rfl, fun _ ha => Or.inl ha, hflow⟩

theorem uriDiscipline_comp {u : String} {w w1 w2 : World}
    (h12 : uriDiscipline u w1 w2)
    (hlog : w1.exchange_log = w.exchange_log)
    (hurl : ∀ a, w1.session.auth_url = some a →
        w.session.auth_url = some a ∨ a.redirect_uri = u) :
    uriDiscipline u w w2 := by
  obtain ⟨l, au, fl⟩ := h12
  refine ⟨?_, ?_, fl⟩
  · rcases l with l | ⟨c, hc⟩
    · exact Or.inl (l.trans hlog)
    · exact Or.inr ⟨c, by rw [hc, hlog]⟩
  · intro a ha
    rcases au a ha with h | h
    · exact hurl a h
    · exact Or.inr h

theorem uriDiscipline_congr {u : String} {w x y : World}
    (h : uriDiscipline u w x) (hses : y.session = x.session)
    (hlog : y.exchange_log = x.exchange_log) : uriDiscipline u w y := by
  obtain ⟨l, au, fl⟩ := h
  refine ⟨?_, ?_, ?_⟩
  · rw [hlog]
    exact l
  · intro a ha
    rw [hses] at ha
    exact au a ha
  · intro g hg
    rw [hses] at hg
    exact fl g hg

theorem get_oauth_client_type_congr {fs fs2 : FS}
    (h : fs2.credentials = fs.credentials) :
    get_oauth_client_type fs2 = get_oauth_client_type fs := by
  unfold get_oauth_client_type
  rw [h]

theorem refreshStep_world (env : Env) (creds0 : Option Credentials) (w : World) :
    (refreshStep env creds0 w).2.session = w.session ∧
    (refreshStep env creds0 w).2.exchange_log = w.exchange_log ∧
    (refreshStep env creds0 w).2.fs.credentials = w.fs.credentials := by
  unfold refreshStep
  cases creds0 with
  | none => exact ⟨rfl, rfl, rfl⟩
  | some c =>
      dsimp only
      split
      · split <;> exact ⟨rfl, rfl, rfl⟩
      · exact ⟨rfl, rfl, rfl⟩

theorem fetchOutcome_uri (env : Env) (w : World) (f : OAuthFlow) (code : String)
    (u : String) (hfu : f.redirect_uri = u) :
    uriDiscipline u w (outcomeWorld
      (match (fetch_token env w f code).2 with
       | Except.ok _ =>
           FlowOutcome.early (clearCallbackSession (fetch_token env w f code).1)
             (AuthStatus.auth_error
               "UnboundLocalError: local variable auth_url referenced before assignment")
       | Except.error e =>
           FlowOutcome.early (clearCallbackSession (fetch_token env w f code).1)
             (AuthStatus.auth_error e))) := by
  cases hr : (fetch_token env w f code).2 with
  | ok c =>
      simp only [hr, outcomeWorld]
      refine ⟨Or.inr ⟨code, ?_⟩, fun a ha => Or.inl ?_, fun g hg => ?_⟩
      · rw [clearCallbackSession_log, fetch_token_log, hfu]
      · rw [clearCallbackSession_auth_url, fetch_token_session] at ha
        exact ha
      · rw [clearCallbackSession_flow] at hg
        cases hg
  | error e =>
      simp only [hr, outcomeWorld]
      refine ⟨Or.inr ⟨code, ?_⟩, fun a ha => Or.inl ?_, fun g hg => ?_⟩
      · rw [clearCallbackSession_log, fetch_token_log, hfu]
      · rw [clearCallbackSession_auth_url, fetch_token_session] at ha
        exact ha
      · rw [clearCallbackSession_flow] at hg
        cases hg

theorem processWebCallback_uri (env : Env) (w : World) (cfg : ClientConfig)
    (code : String) (entry : ClientEntry) (u : String)
    (hweb : cfg.web = some entry) (hu : entry.redirect_uris.head? = some u)
    (hflow : ∀ g, w.session.oauth_flow = some g → g.redirect_uri = u) :
    uriDiscipline u w (outcomeWorld (processWebCallback env w cfg code)) := by
  unfold processWebCallback
  cases hsf : w.session.oauth_flow with
  | some f =>
      simp only [hsf]
      exact fetchOutcome_uri env w f code u (hflow f hsf)
  | none =>
      simp only [hsf]
      unfold reconstructFlow
      simp only [hweb, hu]
      exact fetchOutcome_uri env w ⟨ClientType.web, u, w.query.state⟩ code u rfl

theorem processPastedUrl_uri (env : Env) (w : World) (f : OAuthFlow)
    (u : String) (hfu : f.redirect_uri = u)
    (hflow : ∀ g, w.session.oauth_flow = some g → g.redirect_uri = u) :
    uriDiscipline u w (outcomeWorld (processPastedUrl env w f)) := by
  unfold processPastedUrl
  cases hp : env.pasted_url with
  | none =>
      simp only [outcomeWorld]
      exact uriDiscipline_refl hflow
  | some p =>
      dsimp only
      by_cases hm : stateMismatch f p = true
      · rw [if_pos hm]
        simp only [outcomeWorld]
        exact uriDiscipline_refl hflow
      · rw [if_neg hm]
        cases hr : (fetch_token env w f p.code).2 with
        | ok c =>
            simp only [hr, outcomeWorld]
            refine ⟨Or.inr ⟨p.code, ?_⟩, fun a ha => ?_, fun g hg => ?_⟩
            · show (fetch_token env w f p.code).1.exchange_log = _
              rw [fetch_token_log, hfu]
            · exact absurd (show (none : Option AuthorizationUrl) = some a from ha)
                (by simp)
            · exact absurd (show (none : Option OAuthFlow) = some g from hg)
                (by simp)
        | error e =>
            simp only [hr, outcomeWorld]
            refine ⟨Or.inr ⟨p.code, ?_⟩, fun a ha => Or.inl ?_, fun g hg => ?_⟩
            · rw [fetch_token_log, hfu]
            · rw [fetch_token_session] at ha
              exact ha
            · rw [fetch_token_session] at hg
              exact hflow g hg

theorem generateFlow_eq (env : Env) (cfg : ClientConfig) (ct : ClientType)
    (w : World) (entry : ClientEntry) (u : String)
    (hentry : clientEntry cfg ct = some entry)
    (hu : entry.redirect_uris.head? = some u) :
    generateFlow env cfg ct w = Except.ok
      ({ w with session :=
          { oauth_flow := some ⟨ct, u, some env.fresh_csrf⟩,
            auth_url := some ⟨u, env.fresh_csrf⟩,
            redirect_uri := some u } },
       ⟨ct, u, some env.fresh_csrf⟩) := by
  unfold generateFlow
  simp only [hentry, hu]

theorem afterCallback_uri (env : Env) (w : World) (cfg : ClientConfig)
    (ct : ClientType) (entry : ClientEntry) (u : String)
    (hentry : clientEntry cfg ct = some entry)
    (hu : entry.redirect_uris.head? = some u)
    (hflow : ∀ g, w.session.oauth_flow = some g → g.redirect_uri = u)
    (out : FlowOutcome) (hres : afterCallback env w cfg ct = Except.ok out) :
    uriDiscipline u w (outcomeWorld out) := by
  unfold afterCallback at hres
  cases hsf : w.session.oauth_flow with
  | none =>
      simp only [hsf] at hres
      rw [generateFlow_eq env cfg ct w entry u hentry hu] at hres
      have hres2 :
          (if (ct == ClientType.installed) = true then
            processPastedUrl env
              { w with session :=
                  { oauth_flow := some ⟨ct, u, some env.fresh_csrf⟩,
                    auth_url := some ⟨u, env.fresh_csrf⟩,
                    redirect_uri := some u } }
              ⟨ct, u, some env.fresh_csrf⟩
           else
            FlowOutcome.early
              { w with session :=
                  { oauth_flow := some ⟨ct, u, some env.fresh_csrf⟩,
                    auth_url := some ⟨u, env.fresh_csrf⟩,
                    redirect_uri := some u } }
              AuthStatus.awaiting_auth) = out := Except.ok.inj hres
      by_cases hct : (ct == ClientType.installed) = true
      · rw [if_pos hct] at hres2
        subst hres2
        have hflow1 : ∀ g,
            ({ w with session :=
                { oauth_flow := some ⟨ct, u, some env.fresh_csrf⟩,
                  auth_url := some ⟨u, env.fresh_csrf⟩,
                  redirect_uri := some u } } : World).session.oauth_flow = some g →
            g.redirect_uri = u := by
          intro g hg
          obtain rfl := Option.some.inj hg
          rfl
        have hd := processPastedUrl_uri env
          { w with session :=
              { oauth_flow := some ⟨ct, u, some env.fresh_csrf⟩,
                auth_url := some ⟨u, env.fresh_csrf⟩,
                redirect_uri := some u } }
          ⟨ct, u, some env.fresh_csrf⟩ u rfl hflow1
        refine uriDiscipline_comp hd rfl ?_
        intro a ha
        obtain rfl := Option.some.inj ha
        exact Or.inr rfl
      · rw [if_neg hct] at hres2
        subst hres2
        simp only [outcomeWorld]
        refine ⟨Or.inl rfl, fun a ha => ?_, fun g hg => ?_⟩
        · obtain rfl := Option.some.inj ha
          exact Or.inr rfl
        · obtain rfl := Option.some.inj hg
          rfl
  | some g0 =>
      simp only [hsf] at hres
      unfold retrieveFlow at hres
      rw [hsf] at hres
      cases hau : w.session.auth_url with
      | none =>
          rw [hau] at hres
          simp at hres
      | some a0 =>
          rw [hau] at hres
          cases hru : w.session.redirect_uri with
          | none =>
              rw [hru] at hres
              simp at hres
          | some r0 =>
              rw [hru] at hres
              have hres2 :
                  (if (ct == ClientType.installed) = true then
                    processPastedUrl env w g0
                   else FlowOutcome.early w AuthStatus.awaiting_auth) = out :=
                Except.ok.inj hres
              by_cases hct : (ct == ClientType.installed) = true
              · rw [if_pos hct] at hres2
                subst hres2
                exact processPastedUrl_uri env w g0 u (hflow g0 hsf) hflow
              · rw [if_neg hct] at hres2
                subst hres2
                simp only [outcomeWorld]
                exact uriDiscipline_refl hflow

theorem obtain_uri_inv (env : Env) (w : World) (cfg : ClientConfig)
    (entry : ClientEntry) (u : String)
    (hcred : w.fs.credentials = some (CredFileContent.config cfg))
    (hentry : clientEntry cfg (get_oauth_client_type w.fs) = some entry)
    (hu : entry.redirect_uris.head? = some u)
    (hflow : ∀ g, w.session.oauth_flow = some g → g.redirect_uri = u)
    (out : FlowOutcome) (hres : obtainCredentials env w = Except.ok out) :
    uriDiscipline u w (outcomeWorld out) := by
  unfold obtainCredentials at hres
  by_cases hcl : env.is_cloud = true
  · rw [if_pos hcl] at hres
    simp only [hcred] at hres
    cases hq : w.query.code with
    | some code =>
        rw [hq] at hres
        dsimp only at hres
        by_cases hct : (get_oauth_client_type w.fs == ClientType.web) = true
        · rw [if_pos hct] at hres
          have hctw : get_oauth_client_type w.fs = ClientType.web :=
            beq_iff_eq.mp hct
          have hweb : cfg.web = some entry := by
            rw [hctw] at hentry
            exact hentry
          have hd := processWebCallback_uri env w cfg code entry u hweb hu hflow
          obtain rfl := Except.ok.inj hres
          exact hd
        · rw [if_neg hct] at hres
          exact afterCallback_uri env w cfg _ entry u hentry hu hflow out hres
    | none =>
        rw [hq] at hres
        dsimp only at hres
        exact afterCallback_uri env w cfg _ entry u hentry hu hflow out hres
  · rw [if_neg hcl] at hres
    simp only [hcred] at hres
    by_cases hb : (cfg.web.isNone && cfg.installed.isNone) = true
    · rw [if_pos hb] at hres
      simp at hres
    · rw [if_neg hb] at hres
      cases hl : env.local_auth with
      | some c =>
          rw [hl] at hres
          dsimp only at hres
          obtain rfl := Except.ok.inj hres
          simp only [outcomeWorld]
          exact uriDiscipline_refl hflow
      | none =>
          rw [hl] at hres
          simp at hres

theorem authWithFlow_uri (env : Env) (w : World) (creds0 : Option Credentials)
    (cfg : ClientConfig) (entry : ClientEntry) (u : String)
    (hcred : w.fs.credentials = some (CredFileContent.config cfg))
    (hentry : clientEntry cfg (get_oauth_client_type w.fs) = some entry)
    (hu : entry.redirect_uris.head? = some u)
    (hflow : ∀ g, w.session.oauth_flow = some g → g.redirect_uri = u) :
    uriDiscipline u w (authWithFlow env w creds0).1 := by
  obtain ⟨hses, hlog, hcr⟩ := refreshStep_world env creds0 w
  unfold authWithFlow
  dsimp only
  cases hrs : (refreshStep env creds0 w).1 with
  | some c =>
      dsimp only
      exact uriDiscipline_congr (uriDiscipline_refl hflow) hses hlog
  | none =>
      dsimp only
      by_cases hcn : (refreshStep env creds0 w).2.fs.credentials.isNone = true
      · rw [if_pos hcn]
        exact uriDiscipline_congr (uriDiscipline_refl hflow) hses hlog
      · rw [if_neg hcn]
        cases hob : obtainCredentials env (refreshStep env creds0 w).2 with
        | error e =>
            dsimp only
            exact uriDiscipline_congr (uriDiscipline_refl hflow) hses hlog
        | ok out =>
            have hcred2 : (refreshStep env creds0 w).2.fs.credentials =
                some (CredFileContent.config cfg) := by
              rw [hcr]
              exact hcred
            have hentry2 : clientEntry cfg
                (get_oauth_client_type (refreshStep env creds0 w).2.fs) =
                some entry := by
              rw [get_oauth_client_type_congr hcr]
              exact hentry
            have hflow2 : ∀ g,
                (refreshStep env creds0 w).2.session.oauth_flow = some g →
                g.redirect_uri = u := by
              intro g hg
              rw [hses] at hg
              exact hflow g hg
            have hd := obtain_uri_inv env _ cfg entry u hcred2 hentry2 hu
              hflow2 out hob
            have hd2 : uriDiscipline u w (outcomeWorld out) :=
              uriDiscipline_comp hd hlog
                (fun a ha => Or.inl (by rw [hses] at ha; exact ha))
            cases out with
            | early w2 st =>
                dsimp only
                simpa [outcomeWorld] using hd2
            | got w2 c =>
                dsimp only
                exact uriDiscipline_congr (by simpa [outcomeWorld] using hd2)
                  rfl rfl

/-- C5.  Redirect URI discipline: for a call on a configuration whose
relevant client entry has canonical URI `u = redirect_uris[0]`, and whose
session flow (if any) is bound to `u`, every token-exchange request of the
call uses exactly `u`, every authorization URL the call generates embeds
`u`, and every flow left in the session (fresh or reconstructed after
session loss) is bound to `u` — so the URI used in the code exchange always
equals the one embedded in the authorization URL of that flow instance. -/
theorem redirect_uri_discipline (env : Env) (dsv : Bool) (w : World)
    (cfg : ClientConfig) (entry : ClientEntry) (u : String) (w2 : World)
    (s : Option Service) (st : AuthStatus)
    (hcred : w.fs.credentials = some (CredFileContent.config cfg))
    (hentry : clientEntry cfg (get_oauth_client_type w.fs) = some entry)
    (hu : entry.redirect_uris.head? = some u)
    (hflow : ∀ g, w.session.oauth_flow = some g → g.redirect_uri = u)
    (hres : authenticate_google env dsv w = Except.ok (w2, s, st)) :
    uriDiscipline u w w2 := by
  unfold authenticate_google at hres
  cases hl : loadCachedCredentials w.fs with
  | error e =>
      rw [hl] at hres
      simp at hres
  | ok creds0 =>
      rw [hl] at hres
      have hfin : finishAuth env dsv w creds0 = (w2, s, st) := Except.ok.inj hres
      unfold finishAuth at hfin
      by_cases hv : credsOptValid creds0 = true
      · rw [if_pos hv] at hfin
        dsimp only at hfin
        by_cases hb : env.build_ok = true
        · rw [if_pos hb] at hfin
          simp only [Prod.mk.injEq] at hfin
          obtain ⟨rfl, -, -⟩ := hfin
          exact uriDiscipline_congr (uriDiscipline_refl hflow) rfl rfl
        · rw [if_neg hb] at hfin
          simp only [Prod.mk.injEq] at hfin
          obtain ⟨rfl, -, -⟩ := hfin
          exact uriDiscipline_congr (uriDiscipline_refl hflow) rfl rfl
      · rw [if_neg hv] at hfin
        dsimp only at hfin
        have hd := authWithFlow_uri env w creds0 cfg entry u hcred hentry hu hflow
        cases hst : (authWithFlow env w creds0).2.2 with
        | some st0 =>
            rw [hst] at hfin
            dsimp only at hfin
            simp only [Prod.mk.injEq] at hfin
            obtain ⟨rfl, -, -⟩ := hfin
            exact hd
        | none =>
            rw [hst] at hfin
            dsimp only at hfin
            by_cases hb : env.build_ok = true
            · rw [if_pos hb] at hfin
              simp only [Prod.mk.injEq] at hfin
              obtain ⟨rfl, -, -⟩ := hfin
              exact uriDiscipline_congr hd rfl rfl
            · rw [if_neg hb] at hfin
              simp only [Prod.mk.injEq] at hfin
              obtain ⟨rfl, -, -⟩ := hfin
              exact uriDiscipline_congr hd rfl rfl

theorem redirect_uri_discipline_witness :
    uriDiscipline "http://localhost"
      ⟨⟨none, some (CredFileContent.config ⟨none, some ⟨["http://localhost"]⟩⟩)⟩,
       ⟨none, none, none⟩, ⟨none, none⟩, ⟨0, none, false⟩, [], []⟩
      ⟨⟨some (TokenContent.record ⟨true, false, true⟩),
        some (CredFileContent.config ⟨none, some ⟨["http://localhost"]⟩⟩)⟩,
       ⟨none, none, some "http://localhost"⟩, ⟨none, none⟩, ⟨0, none, false⟩,
       ["CODE1"], [⟨"CODE1", "http://localhost"⟩]⟩ :=
  redirect_uri_discipline
    ⟨true, "NEWSTATE", false, ["CODE1"], some ⟨"CODE1", some "NEWSTATE"⟩, none, true⟩
    false
    ⟨⟨none, some (CredFileContent.config ⟨none, some ⟨["http://localhost"]⟩⟩)⟩,
     ⟨none, none, none⟩, ⟨none, none⟩, ⟨0, none, false⟩, [], []⟩
    ⟨none, some ⟨["http://localhost"]⟩⟩ ⟨["http://localhost"]⟩ "http://localhost"
    ⟨⟨some (TokenContent.record ⟨true, false, true⟩),
      some (CredFileContent.config ⟨none, some ⟨["http://localhost"]⟩⟩)⟩,
     ⟨none, none, some "http://localhost"⟩, ⟨none, none⟩, ⟨0, none, false⟩,
     ["CODE1"], [⟨"CODE1", "http://localhost"⟩]⟩
    (some ⟨some ⟨true, false, true⟩⟩) AuthStatus.success
    rfl rfl rfl (fun g hg => nomatch hg) rfl

/- ## Claim theorems: replay safety -/

theorem web_callback_crash_eq (env : Env) (dsv : Bool) (w : World)
    (cfg : ClientConfig) (f : OAuthFlow) (code : String)
    (hcloud : env.is_cloud = true)
    (htok : w.fs.token = none)
    (hcred : w.fs.credentials = some (CredFileContent.config cfg))
    (hwebk : cfg.web.isSome = true)
    (hflow : w.session.oauth_flow = some f)
    (hq : w.query.code = some code)
    (hgrant : env.granted_codes.contains code = true)
    (hunused : w.used_codes.contains code = false) :
    authenticate_google env dsv w = Except.ok
      ({ w with
         session := { oauth_flow := none, auth_url := w.session.auth_url,
                      redirect_uri := w.session.redirect_uri },
         query := { code := none, state := none },
         used_codes := code :: w.used_codes,
         exchange_log :=
           { code := code, redirect_uri := f.redirect_uri } :: w.exchange_log },
       none,
       AuthStatus.auth_error
         "UnboundLocalError: local variable auth_url referenced before assignment") := by
  have hct : get_oauth_client_type w.fs = ClientType.web := by
    unfold get_oauth_client_type
    rw [hcred]
    simp [hwebk]
  have hg : code ∈ env.granted_codes := by simpa using hgrant
  have hnu : code ∉ w.used_codes := by simpa using hunused
  unfold authenticate_google loadCachedCredentials
  rw [htok]
  unfold finishAuth credsOptValid authWithFlow refreshStep obtainCredentials
    processWebCallback fetch_token clearCallbackSession
  simp [hcloud, hcred, hct, hflow, hq, hg, hnu]

theorem web_callback_replay_eq (env : Env) (dsv : Bool) (w : World)
    (cfg : ClientConfig) (entry : ClientEntry) (u : String) (code : String)
    (hcloud : env.is_cloud = true)
    (htok : w.fs.token = none)
    (hcred : w.fs.credentials = some (CredFileContent.config cfg))
    (hweb : cfg.web = some entry)
    (hu : entry.redirect_uris.head? = some u)
    (hflow : w.session.oauth_flow = none)
    (hq : w.query.code = some code)
    (hused : w.used_codes.contains code = true) :
    authenticate_google env dsv w = Except.ok
      ({ w with
         session := { oauth_flow := none, auth_url := w.session.auth_url,
                      redirect_uri := w.session.redirect_uri },
         query := { code := none, state := none },
         exchange_log :=
           { code := code, redirect_uri := u } :: w.exchange_log },
       none,
       AuthStatus.auth_error "invalid_grant: code already redeemed or unknown") := by
  have hct : get_oauth_client_type w.fs = ClientType.web := by
    unfold get_oauth_client_type
    rw [hcred]
    simp [hweb]
  have hus : code ∈ w.used_codes := by simpa using hused
  unfold authenticate_google loadCachedCredentials
  rw [htok]
  unfold finishAuth credsOptValid authWithFlow refreshStep obtainCredentials
    processWebCallback reconstructFlow fetch_token clearCallbackSession
  simp [hcloud, hcred, hct, hflow, hq, hweb, hu, hus]

/-- C8.  Replay safety via post-exchange cleanup: a successful web-callback
exchange redeems the code and removes the pending flow and both callback
parameters from the session (lines 375-378); the call itself then reports
`auth_error` because the unguarded display `else` at line 444 reads the
unassigned local `auth_url` (`UnboundLocalError`, caught at line 534), so
no token is saved.  Re-entering with the same code finds no cached flow,
reconstructs one, and the exchange of the already-redeemed code fails with
`invalid_grant` — so re-entry never re-triggers an exchange through a
cached flow, the code is redeemed at most once across both calls, and the
second completion fails. -/
theorem replay_cleanup_and_single_use (env : Env) (dsv dsv2 : Bool)
    (w : World) (cfg : ClientConfig) (entry : ClientEntry) (u : String)
    (f : OAuthFlow) (code : String)
    (hcloud : env.is_cloud = true)
    (htok : w.fs.token = none)
    (hcred : w.fs.credentials = some (CredFileContent.config cfg))
    (hweb : cfg.web = some entry) (hu : entry.redirect_uris.head? = some u)
    (hflow : w.session.oauth_flow = some f)
    (hq : w.query.code = some code)
    (hgrant : env.granted_codes.contains code = true)
    (hunused : w.used_codes.contains code = false) :
    ∃ w1,
      authenticate_google env dsv w = Except.ok (w1, none,
        AuthStatus.auth_error
          "UnboundLocalError: local variable auth_url referenced before assignment") ∧
      w1.session.oauth_flow = none ∧ w1.query.code = none ∧
      w1.query.state = none ∧ w1.used_codes = code :: w.used_codes ∧
      w1.fs = w.fs ∧
      ∃ w3, authenticate_google env dsv2
          { w1 with query := { code := some code, state := w.query.state } } =
        Except.ok (w3, none,
          AuthStatus.auth_error "invalid_grant: code already redeemed or unknown") ∧
        w3.used_codes = code :: w.used_codes := by
  refine ⟨_,
    web_callback_crash_eq env dsv w cfg f code hcloud htok hcred
      (by rw [hweb]; rfl) hflow hq hgrant hunused,
    rfl, rfl, rfl, rfl, rfl, ?_⟩
  refine ⟨_,
    web_callback_replay_eq env dsv2 _ cfg entry u code hcloud htok hcred
      hweb hu rfl rfl (by simp), rfl⟩

theorem replay_cleanup_and_single_use_witness :
    ∃ w1,
      authenticate_google ⟨true, "NEW", false, ["CODE1"], none, none, true⟩ false
        ⟨⟨none, some (CredFileContent.config ⟨some ⟨["https://app/cb"]⟩, none⟩)⟩,
         ⟨some ⟨ClientType.web, "https://app/cb", some "S1"⟩,
          some ⟨"https://app/cb", "S1"⟩, some "https://app/cb"⟩,
         ⟨some "CODE1", some "S1"⟩, ⟨0, none, false⟩, [], []⟩ =
        Except.ok (w1, none,
          AuthStatus.auth_error
            "UnboundLocalError: local variable auth_url referenced before assignment") ∧
      w1.session.oauth_flow = none ∧ w1.query.code = none ∧
      w1.query.state = none ∧ w1.used_codes = ["CODE1"] ∧
      w1.fs = ⟨none, some (CredFileContent.config ⟨some ⟨["https://app/cb"]⟩, none⟩)⟩ ∧
      ∃ w3, authenticate_google ⟨true, "NEW", false, ["CODE1"], none, none, true⟩ false
          { w1 with query := { code := some "CODE1", state := some "S1" } } =
        Except.ok (w3, none,
          AuthStatus.auth_error "invalid_grant: code already redeemed or unknown") ∧
        w3.used_codes = ["CODE1"] :=
  replay_cleanup_and_single_use
    ⟨true, "NEW", false, ["CODE1"], none, none, true⟩ false false
    ⟨⟨none, some (CredFileContent.config ⟨some ⟨["https://app/cb"]⟩, none⟩)⟩,
     ⟨some ⟨ClientType.web, "https://app/cb", some "S1"⟩,
      some ⟨"https://app/cb", "S1"⟩, some "https://app/cb"⟩,
     ⟨some "CODE1", some "S1"⟩, ⟨0, none, false⟩, [], []⟩
    ⟨some ⟨["https://app/cb"]⟩, none⟩ ⟨["https://app/cb"]⟩ "https://app/cb"
    ⟨ClientType.web, "https://app/cb", some "S1"⟩ "CODE1"
    rfl rfl rfl rfl rfl rfl rfl rfl rfl
